import Mathlib

/-!
Verification of src/lib/compute/autoscaler.js (gcloud-node).

The file is embedded shallowly: JavaScript objects are references into an
explicit heap, so reference equality (the JS triple-equals on objects) and
in-place property mutation are modelled faithfully.  The autoscaler handle,
the parent zone, request metadata objects and API responses all live in the
heap.  The two overridden methods, Autoscaler.prototype.delete and
Autoscaler.prototype.setMetadata, are translated line by line; the external
collaborators that are not under src (the generic ServiceObject base,
zone.operation and util.noop) are modelled from the spec where noted.
-/

namespace Autoscaler

/-- Identities of the JavaScript functions that occur as first-class values in
the embedded fragment: util.noop, arbitrary user callbacks (distinguished by a
tag), and zone.createAutoscaler.bind(zone) (carrying the address of the zone it
is bound to). -/
inductive FnId where
  | noop : FnId
  | user : Nat → FnId
  | boundCreateAutoscaler : Nat → FnId
deriving DecidableEq, Repr

/-- JavaScript values.  Objects are references (addresses) into an explicit
heap. -/
inductive JSVal where
  | undef : JSVal
  | null : JSVal
  | bool : Bool → JSVal
  | num : Int → JSVal
  | str : String → JSVal
  | ref : Nat → JSVal
  | fn : FnId → JSVal
deriving DecidableEq, Repr

/-- JavaScript truthiness, as used by the guards in the source
(callback resolution, metadata defaulting, the err check). -/
def truthy : JSVal → Bool
  | JSVal.undef => false
  | JSVal.null => false
  | JSVal.bool b => b
  | JSVal.num n => n != 0
  | JSVal.str s => s != ""
  | JSVal.ref _ => true
  | JSVal.fn _ => true

/-- A JavaScript object: an ordered association list of property names to
values. -/
abbrev JSObj := List (String × JSVal)

/-- Property lookup on an object; a missing property reads as undefined. -/
def objGet : JSObj → String → JSVal
  | [], _ => JSVal.undef
  | p :: rest, k => if p.1 = k then p.2 else objGet rest k

/-- Property assignment on an object: the first binding of the key is replaced
in place, a missing key is appended. -/
def objSet : JSObj → String → JSVal → JSObj
  | [], k, v => [(k, v)]
  | p :: rest, k, v => if p.1 = k then (k, v) :: rest else p :: objSet rest k v

/-- The mutable store: allocated addresses with their objects, plus the next
fresh address. -/
structure Heap where
  objs : List (Nat × JSObj)
  next : Nat
deriving DecidableEq, Repr

/-- Lookup of an address in the store. -/
def heapGet : List (Nat × JSObj) → Nat → Option JSObj
  | [], _ => none
  | p :: rest, a => if p.1 = a then some p.2 else heapGet rest a

/-- Property update of the object at an address; a dangling address leaves the
store unchanged (such addresses never arise in a well-formed heap). -/
def heapSet : List (Nat × JSObj) → Nat → String → JSVal → List (Nat × JSObj)
  | [], _, _, _ => []
  | p :: rest, a, k, v =>
    if p.1 = a then (a, objSet p.2 k v) :: rest else p :: heapSet rest a k v

def Heap.get (h : Heap) (a : Nat) : Option JSObj :=
  heapGet h.objs a

def Heap.getProp (h : Heap) (a : Nat) (k : String) : JSVal :=
  match h.get a with
  | some o => objGet o k
  | none => JSVal.undef

def Heap.setProp (h : Heap) (a : Nat) (k : String) (v : JSVal) : Heap :=
  Heap.mk (heapSet h.objs a k v) h.next

/-- Allocation of a fresh object, returning the new heap and the address. -/
def Heap.alloc (h : Heap) (o : JSObj) : Heap × Nat :=
  (Heap.mk (h.objs ++ [(h.next, o)]) (h.next + 1), h.next)

/-- Heap well-formedness: every allocated address is below the allocation
counter, so fresh allocations never collide with live objects. -/
def Heap.WF (h : Heap) : Prop :=
  ∀ p ∈ h.objs, p.1 < h.next

instance (h : Heap) : Decidable h.WF := by
  unfold Heap.WF
  infer_instance

/-- Result of running a piece of JavaScript: a value, or a thrown exception. -/
inductive JsOutcome (α : Type) where
  | ok : α → JsOutcome α
  | thrown : String → JsOutcome α
deriving DecidableEq, Repr

/-- Reading property k of a value: TypeError on null and undefined, undefined
on other primitives, a heap lookup on an object reference. -/
def readProp (h : Heap) (v : JSVal) (k : String) : JsOutcome JSVal :=
  match v with
  | JSVal.ref a => JsOutcome.ok (h.getProp a k)
  | JSVal.undef => JsOutcome.thrown "TypeError: cannot read properties of undefined"
  | JSVal.null => JsOutcome.thrown "TypeError: cannot read properties of null"
  | _ => JsOutcome.ok JSVal.undef

/-- Writing property k of a value: the file runs in strict mode, so assigning
a property of a non-object throws a TypeError. -/
def writeProp (h : Heap) (v : JSVal) (k : String) (w : JSVal) : JsOutcome Heap :=
  match v with
  | JSVal.ref a => JsOutcome.ok (h.setProp a k w)
  | _ => JsOutcome.thrown "TypeError: cannot set property on a non-object"

/-- The argument triple (err, operation, apiResponse) with which the source
invokes a completion callback. -/
structure CallbackCall where
  err : JSVal
  op : JSVal
  resp : JSVal
deriving DecidableEq, Repr

/-- Calling a value with the three callback arguments: util.noop swallows them
(util.noop is not under src/ and is modelled from the spec, which substitutes
a no-op function), a user function observes them, and any non-function value
throws a TypeError. -/
def applyCallback (cbk : JSVal) (c : CallbackCall) : JsOutcome (Option CallbackCall) :=
  match cbk with
  | JSVal.fn FnId.noop => JsOutcome.ok none
  | JSVal.fn _ => JsOutcome.ok (some c)
  | _ => JsOutcome.thrown "TypeError: callback is not a function"

/-- An HTTP request as assembled by the source: method, uri, query parameters
and the JSON body (a reference to the body object, or undefined). -/
structure HttpRequest where
  method : String
  uri : String
  qs : List (String × JSVal)
  json : JSVal
deriving DecidableEq, Repr

/-- Observable outcome of one method call: the HTTP requests issued, the final
heap, and the completion (normal termination carrying the observed invocation
of the user callback, if any, or a thrown exception). -/
structure MethodOutcome where
  reqs : List HttpRequest
  heap : Heap
  result : JsOutcome (Option CallbackCall)
deriving DecidableEq, Repr

/-- Modelled from the spec: zone.operation(name) lives in zone.js, which is not
under src/.  Per the spec it returns a fresh Operation handle identified by the
given name, bound to the zone, carrying a metadata snapshot that callers may
set. -/
def zoneOperation (h : Heap) (zoneV nameV : JSVal) : Heap × Nat :=
  h.alloc [("zone", zoneV), ("name", nameV), ("metadata", JSVal.undef)]

/-- Response continuation of Autoscaler.prototype.delete, src lines 173-183:
on error invoke callback(err, null, resp); on success build
zone.operation(resp.name), assign resp as its metadata, and invoke
callback(null, operation, resp). -/
def deleteResponseHandler (h : Heap) (zoneV cbk err resp : JSVal) :
    Heap × JsOutcome (Option CallbackCall) :=
  if truthy err then
    (h, applyCallback cbk (CallbackCall.mk err JSVal.null resp))
  else
    match zoneV with
    | JSVal.ref _ =>
      match readProp h resp "name" with
      | JsOutcome.thrown m => (h, JsOutcome.thrown m)
      | JsOutcome.ok nameV =>
        let allocRes := zoneOperation h zoneV nameV
        let h2 := (allocRes.1).setProp allocRes.2 "metadata" resp
        (h2, applyCallback cbk (CallbackCall.mk JSVal.null (JSVal.ref allocRes.2) resp))
    | _ => (h, JsOutcome.thrown "TypeError: zone.operation is not a function")

/-- Response continuation of Autoscaler.prototype.setMetadata, src lines
225-235: on error invoke callback(err, null, resp); on success build
zone.operation(resp.name), assign resp as its metadata, and invoke
callback(null, operation, resp). -/
def setMetadataResponseHandler (h : Heap) (zoneV cbk err resp : JSVal) :
    Heap × JsOutcome (Option CallbackCall) :=
  if truthy err then
    (h, applyCallback cbk (CallbackCall.mk err JSVal.null resp))
  else
    match zoneV with
    | JSVal.ref _ =>
      match readProp h resp "name" with
      | JsOutcome.thrown m => (h, JsOutcome.thrown m)
      | JsOutcome.ok nameV =>
        let allocRes := zoneOperation h zoneV nameV
        let h2 := (allocRes.1).setProp allocRes.2 "metadata" resp
        (h2, applyCallback cbk (CallbackCall.mk JSVal.null (JSVal.ref allocRes.2) resp))
    | _ => (h, JsOutcome.thrown "TypeError: zone.operation is not a function")

/-- String coercion used only for the uri of the generic DELETE request. -/
def asString : JSVal → String
  | JSVal.str s => s
  | _ => ""

/-- Autoscaler.prototype.delete, src/lib/compute/autoscaler.js lines 168-184.
The handle lives at address selfA; cb is the caller-supplied callback value
(undefined when omitted); err and resp are the transport outcome which the
generic base hands to the continuation.  ServiceObject.prototype.delete is not
under src/ and is modelled from the spec: it issues the generic DELETE on the
resource path and passes the transport outcome (err, resp) to the supplied
continuation. -/
def delete (h : Heap) (selfA : Nat) (cb err resp : JSVal) : MethodOutcome :=
  let cbk := if truthy cb then cb else JSVal.fn FnId.noop
  let zoneV := h.getProp selfA "zone"
  let req := HttpRequest.mk "DELETE"
    (asString (h.getProp selfA "baseUrl") ++ "/" ++ asString (h.getProp selfA "id"))
    [] JSVal.undef
  let hr := deleteResponseHandler h zoneV cbk err resp
  MethodOutcome.mk [req] hr.1 hr.2

/-- Autoscaler.prototype.setMetadata, src/lib/compute/autoscaler.js lines
209-236.  The handle lives at address selfA; mv is the caller-supplied
metadata value (undefined when omitted); cb is the callback value; err and
resp are the transport outcome which zone.request (zone.js, not under src/;
per the spec the raw HTTP delegate) hands to the continuation.  Following the
source: default the callback to util.noop, default metadata to a fresh empty
object, assign metadata.name and metadata.zone in place, then issue a PATCH
to /autoscalers with query parameter autoscaler and the metadata object as the
JSON body. -/
def setMetadata (h : Heap) (selfA : Nat) (mv cb err resp : JSVal) : MethodOutcome :=
  let zoneV := h.getProp selfA "zone"
  let cbk := if truthy cb then cb else JSVal.fn FnId.noop
  let alloca :=
    if truthy mv then (h, mv)
    else
      let p := h.alloc []
      (p.1, JSVal.ref p.2)
  let h1 := alloca.1
  let m := alloca.2
  match writeProp h1 m "name" (h1.getProp selfA "name") with
  | JsOutcome.thrown msg => MethodOutcome.mk [] h1 (JsOutcome.thrown msg)
  | JsOutcome.ok h2 =>
    match readProp h2 (h2.getProp selfA "zone") "name" with
    | JsOutcome.thrown msg => MethodOutcome.mk [] h2 (JsOutcome.thrown msg)
    | JsOutcome.ok zn =>
      match writeProp h2 m "zone" zn with
      | JsOutcome.thrown msg => MethodOutcome.mk [] h2 (JsOutcome.thrown msg)
      | JsOutcome.ok h3 =>
        match zoneV with
        | JSVal.ref _ =>
          let req := HttpRequest.mk "PATCH" "/autoscalers"
            [("autoscaler", h3.getProp selfA "name")] m
          let hr := setMetadataResponseHandler h3 zoneV cbk err resp
          MethodOutcome.mk [req] hr.1 hr.2
        | _ => MethodOutcome.mk [] h3
            (JsOutcome.thrown "TypeError: zone.request is not a function")

/-- The Autoscaler constructor, src/lib/compute/autoscaler.js lines 63-147:
builds the methods capability table, calls the ServiceObject base constructor
with parent zone, baseUrl /autoscalers, id name, createMethod
zone.createAutoscaler.bind(zone) and the table, then assigns this.name and
this.zone.  The ServiceObject base constructor is not under src/ and is
modelled from the spec: it stores the configuration on the instance and
performs no I/O.  The returned list collects the HTTP requests issued during
construction. -/
def constructor (h : Heap) (zoneA : Nat) (name : String) :
    Heap × Nat × List HttpRequest :=
  let p1 := h.alloc
    [("create", JSVal.bool true), ("exists", JSVal.bool true),
     ("get", JSVal.bool true), ("getMetadata", JSVal.bool true)]
  let p2 := (p1.1).alloc
    [("parent", JSVal.ref zoneA), ("baseUrl", JSVal.str "/autoscalers"),
     ("id", JSVal.str name),
     ("createMethod", JSVal.fn (FnId.boundCreateAutoscaler zoneA)),
     ("methods", JSVal.ref p1.2)]
  let h3 := (p2.1).setProp p2.2 "name" (JSVal.str name)
  let h4 := h3.setProp p2.2 "zone" (JSVal.ref zoneA)
  (h4, p2.2, [])

/-- Modelled from the spec: the generic ServiceObject getMetadata
(service-object.js, not under src/) issues a read of the resource metadata
and, on success, stores it on the handle before returning it.  Only its heap
effect is needed here. -/
def genericGetMetadata (h : Heap) (selfA : Nat) (err resp : JSVal) : Heap :=
  if truthy err then h else h.setProp selfA "metadata" resp

/-- A small concrete heap used by the witnesses: address 0 holds the parent
zone, address 1 the autoscaler handle (wired as the constructor wires it),
address 2 an API response carrying an operation name, and address 3 a
caller-supplied metadata object that already contains conflicting name and
zone fields. -/
def H0 : Heap := Heap.mk
  [(0, [("name", JSVal.str "us-central1-a")]),
   (1, [("baseUrl", JSVal.str "/autoscalers"), ("id", JSVal.str "a1"),
        ("name", JSVal.str "a1"), ("zone", JSVal.ref 0),
        ("metadata", JSVal.str "old")]),
   (2, [("name", JSVal.str "op-123"), ("status", JSVal.str "PENDING")]),
   (3, [("description", JSVal.str "x"), ("name", JSVal.str "evil"),
        ("zone", JSVal.str "elsewhere")]),
   (4, [("status", JSVal.str "PENDING")])]
  5

/-- State of the heap after the two in-place assignments of setMetadata
(src lines 215-216) when the caller passed an object at address a: name and
zone are written onto that very object, with the zone name read from the zone
object at address zA.  Used to state the lemmas about setMetadata. -/
def injectedHeap (h : Heap) (selfA a zA : Nat) : Heap :=
  (h.setProp a "name" (h.getProp selfA "name")).setProp a "zone"
    (h.getProp zA "name")

/-- State of the heap after the two in-place assignments of setMetadata when
the metadata argument was omitted: a fresh empty object is allocated at
address h.next and name and zone are written onto it. -/
def injectedFreshHeap (h : Heap) (selfA zA : Nat) : Heap :=
  (((h.alloc []).1).setProp h.next "name" (h.getProp selfA "name")).setProp
    h.next "zone" (h.getProp zA "name")

section ObjLemmas

theorem objGet_objSet_self (o : JSObj) (k : String) (v : JSVal) :
    objGet (objSet o k v) k = v := by
  induction o with
  | nil => simp [objSet, objGet]
  | cons p rest ih =>
    by_cases hp : p.1 = k
    · simp [objSet, hp, objGet]
    · simp [objSet, hp, objGet, ih]

theorem objGet_objSet_ne (o : JSObj) (k k' : String) (v : JSVal) (hk : k' ≠ k) :
    objGet (objSet o k v) k' = objGet o k' := by
  have hk' : k ≠ k' := Ne.symm hk
  induction o with
  | nil => simp [objSet, objGet, hk']
  | cons p rest ih =>
    by_cases hp : p.1 = k
    · simp [objSet, hp, objGet, hk']
    · by_cases hp' : p.1 = k'
      · simp [objSet, hp, objGet, hp', hk, hk']
      · simp [objSet, hp, objGet, hp', ih]

end ObjLemmas

section HeapLemmas

theorem heapGet_heapSet_self (l : List (Nat × JSObj)) (a : Nat) (k : String) (v : JSVal) :
    heapGet (heapSet l a k v) a = (heapGet l a).map (fun o => objSet o k v) := by
  induction l with
  | nil => simp [heapSet, heapGet]
  | cons p rest ih =>
    by_cases hp : p.1 = a
    · simp [heapSet, hp, heapGet]
    · simp [heapSet, hp, heapGet, ih]

theorem heapGet_heapSet_ne (l : List (Nat × JSObj)) (a b : Nat) (k : String) (v : JSVal)
    (hab : b ≠ a) :
    heapGet (heapSet l a k v) b = heapGet l b := by
  have hab' : a ≠ b := Ne.symm hab
  induction l with
  | nil => simp [heapSet, heapGet]
  | cons p rest ih =>
    by_cases hp : p.1 = a
    · simp [heapSet, hp, heapGet, hab, hab']
    · by_cases hp' : p.1 = b
      · simp [heapSet, hp, heapGet, hp', hab, hab']
      · simp [heapSet, hp, heapGet, hp', ih]

theorem heapGet_append (l1 l2 : List (Nat × JSObj)) (a : Nat) :
    heapGet (l1 ++ l2) a =
      match heapGet l1 a with
      | some o => some o
      | none => heapGet l2 a := by
  induction l1 with
  | nil => simp [heapGet]
  | cons p rest ih =>
    by_cases hp : p.1 = a
    · simp [heapGet, hp]
    · simp [heapGet, hp, ih]

theorem heapGet_of_bound_none (l : List (Nat × JSObj)) (n : Nat)
    (hb : ∀ p ∈ l, p.1 < n) :
    heapGet l n = none := by
  induction l with
  | nil => simp [heapGet]
  | cons p rest ih =>
    have hp : p.1 < n := hb p (List.mem_cons_self p rest)
    have hne : p.1 ≠ n := Nat.ne_of_lt hp
    simp [heapGet, hne]
    exact ih (fun q hq => hb q (List.mem_cons_of_mem p hq))

theorem heapGet_some_mem (l : List (Nat × JSObj)) (a : Nat) (o : JSObj)
    (hs : heapGet l a = some o) : (a, o) ∈ l := by
  induction l with
  | nil => simp [heapGet] at hs
  | cons p rest ih =>
    by_cases hp : p.1 = a
    · simp [heapGet, hp] at hs
      subst hp
      subst hs
      exact List.mem_cons_self p rest
    · simp [heapGet, hp] at hs
      exact List.mem_cons_of_mem p (ih hs)

theorem heapSet_fst_mem (l : List (Nat × JSObj)) (a : Nat) (k : String) (v : JSVal) :
    ∀ p ∈ heapSet l a k v, ∃ q ∈ l, p.1 = q.1 := by
  induction l with
  | nil => simp [heapSet]
  | cons p rest ih =>
    intro q hq
    by_cases hp : p.1 = a
    · simp [heapSet, hp] at hq
      rcases hq with hq | hq
      · exact ⟨p, List.mem_cons_self p rest, by simp [hq, hp]⟩
      · exact ⟨q, List.mem_cons_of_mem p hq, rfl⟩
    · simp [heapSet, hp] at hq
      rcases hq with hq | hq
      · exact ⟨p, List.mem_cons_self p rest, by simp [hq]⟩
      · rcases ih q hq with ⟨r, hr, hqr⟩
        exact ⟨r, List.mem_cons_of_mem p hr, hqr⟩

end HeapLemmas

section HeapDerived

theorem Heap.get_alloc_self (h : Heap) (o : JSObj) (hwf : h.WF) :
    ((h.alloc o).1).get h.next = some o := by
  show heapGet (h.objs ++ [(h.next, o)]) h.next = some o
  rw [heapGet_append]
  rw [heapGet_of_bound_none h.objs h.next hwf]
  simp [heapGet]

theorem Heap.getProp_alloc_self (h : Heap) (o : JSObj) (k : String) (hwf : h.WF) :
    ((h.alloc o).1).getProp h.next k = objGet o k := by
  unfold Heap.getProp
  rw [Heap.get_alloc_self h o hwf]

theorem Heap.get_alloc_ne (h : Heap) (o : JSObj) (a : Nat) (hne : a ≠ h.next) :
    ((h.alloc o).1).get a = h.get a := by
  show heapGet (h.objs ++ [(h.next, o)]) a = heapGet h.objs a
  rw [heapGet_append]
  cases hg : heapGet h.objs a with
  | some o' => simp
  | none => simp [heapGet, Ne.symm hne]

theorem Heap.getProp_alloc_ne (h : Heap) (o : JSObj) (a : Nat) (k : String)
    (hne : a ≠ h.next) :
    ((h.alloc o).1).getProp a k = h.getProp a k := by
  unfold Heap.getProp
  rw [Heap.get_alloc_ne h o a hne]

theorem Heap.get_setProp_self (h : Heap) (a : Nat) (k : String) (v : JSVal) :
    (h.setProp a k v).get a = (h.get a).map (fun o => objSet o k v) :=
  heapGet_heapSet_self h.objs a k v

theorem Heap.get_setProp_ne (h : Heap) (a b : Nat) (k : String) (v : JSVal)
    (hab : b ≠ a) :
    (h.setProp a k v).get b = h.get b :=
  heapGet_heapSet_ne h.objs a b k v hab

theorem Heap.getProp_setProp_ne_addr (h : Heap) (a b : Nat) (k k' : String) (v : JSVal)
    (hab : b ≠ a) :
    (h.setProp a k v).getProp b k' = h.getProp b k' := by
  unfold Heap.getProp
  rw [Heap.get_setProp_ne h a b k v hab]

theorem Heap.getProp_setProp_ne_key (h : Heap) (a b : Nat) (k k' : String) (v : JSVal)
    (hk : k' ≠ k) :
    (h.setProp a k v).getProp b k' = h.getProp b k' := by
  by_cases hab : b = a
  · subst hab
    unfold Heap.getProp
    rw [Heap.get_setProp_self]
    cases hg : h.get b with
    | some o => simp [objGet_objSet_ne o k k' v hk]
    | none => simp
  · exact Heap.getProp_setProp_ne_addr h a b k k' v hab

theorem Heap.getProp_setProp_self (h : Heap) (a : Nat) (k : String) (v : JSVal)
    (o : JSObj) (hg : h.get a = some o) :
    (h.setProp a k v).getProp a k = v := by
  unfold Heap.getProp
  rw [Heap.get_setProp_self, hg]
  simp [objGet_objSet_self]

theorem Heap.next_setProp (h : Heap) (a : Nat) (k : String) (v : JSVal) :
    (h.setProp a k v).next = h.next := rfl

theorem Heap.next_alloc (h : Heap) (o : JSObj) :
    ((h.alloc o).1).next = h.next + 1 := rfl

theorem Heap.WF.setProp {h : Heap} (hwf : h.WF) (a : Nat) (k : String) (v : JSVal) :
    (h.setProp a k v).WF := by
  intro p hp
  rcases heapSet_fst_mem h.objs a k v p hp with ⟨q, hq, hpq⟩
  show p.1 < h.next
  rw [hpq]
  exact hwf q hq

theorem Heap.WF.alloc {h : Heap} (hwf : h.WF) (o : JSObj) :
    ((h.alloc o).1).WF := by
  intro p hp
  show p.1 < h.next + 1
  rcases List.mem_append.mp hp with hp | hp
  · exact Nat.lt_succ_of_lt (hwf p hp)
  · simp at hp
    simp [hp]

theorem Heap.WF.lt_of_get {h : Heap} (hwf : h.WF) {a : Nat} {o : JSObj}
    (hg : h.get a = some o) : a < h.next := by
  have hm := heapGet_some_mem h.objs a o hg
  exact hwf (a, o) hm

end HeapDerived

section MethodLemmas

theorem truthy_fn (f : FnId) : truthy (JSVal.fn f) = true := rfl

theorem truthy_ref (a : Nat) : truthy (JSVal.ref a) = true := rfl

theorem truthy_undef : truthy JSVal.undef = false := rfl

theorem Heap.alloc_snd (h : Heap) (o : JSObj) : (h.alloc o).2 = h.next := rfl

theorem responseHandlers_agree (h : Heap) (zoneV cbk err resp : JSVal) :
    deleteResponseHandler h zoneV cbk err resp
      = setMetadataResponseHandler h zoneV cbk err resp := rfl

theorem deleteResponseHandler_err (h : Heap) (zoneV cbk err resp : JSVal)
    (he : truthy err = true) :
    deleteResponseHandler h zoneV cbk err resp
      = (h, applyCallback cbk (CallbackCall.mk err JSVal.null resp)) := by
  simp [deleteResponseHandler, he]

theorem deleteResponseHandler_success (h : Heap) (zA rA : Nat) (cbk err : JSVal)
    (he : truthy err = false) :
    deleteResponseHandler h (JSVal.ref zA) cbk err (JSVal.ref rA)
      = (((h.alloc [("zone", JSVal.ref zA), ("name", h.getProp rA "name"),
            ("metadata", JSVal.undef)]).1).setProp h.next "metadata" (JSVal.ref rA),
         applyCallback cbk
           (CallbackCall.mk JSVal.null (JSVal.ref h.next) (JSVal.ref rA))) := by
  simp only [deleteResponseHandler, he, readProp, zoneOperation, Bool.false_eq_true,
    if_false]
  rfl

theorem delete_eq (h : Heap) (selfA : Nat) (cb err resp : JSVal) :
    delete h selfA cb err resp
      = MethodOutcome.mk
          [HttpRequest.mk "DELETE"
            (asString (h.getProp selfA "baseUrl") ++ "/"
              ++ asString (h.getProp selfA "id")) [] JSVal.undef]
          (deleteResponseHandler h (h.getProp selfA "zone")
            (if truthy cb then cb else JSVal.fn FnId.noop) err resp).1
          (deleteResponseHandler h (h.getProp selfA "zone")
            (if truthy cb then cb else JSVal.fn FnId.noop) err resp).2 := rfl

theorem alloc_setProp_getProp_frame (h : Heap) (o : JSObj) (k' : String) (v : JSVal)
    (b : Nat) (k : String) (hb : b ≠ h.next) :
    (((h.alloc o).1).setProp h.next k' v).getProp b k = h.getProp b k := by
  rw [Heap.getProp_setProp_ne_addr _ _ _ _ _ _ hb]
  exact Heap.getProp_alloc_ne h o b k hb

theorem opHeap_name (h : Heap) (zA rA : Nat) (hwf : h.WF) :
    (((h.alloc [("zone", JSVal.ref zA), ("name", h.getProp rA "name"),
        ("metadata", JSVal.undef)]).1).setProp h.next "metadata"
        (JSVal.ref rA)).getProp h.next "name" = h.getProp rA "name" := by
  rw [Heap.getProp_setProp_ne_key _ _ _ _ _ _ (by decide)]
  rw [Heap.getProp_alloc_self _ _ _ hwf]
  simp [objGet]

theorem opHeap_metadata (h : Heap) (zA rA : Nat) (hwf : h.WF) :
    (((h.alloc [("zone", JSVal.ref zA), ("name", h.getProp rA "name"),
        ("metadata", JSVal.undef)]).1).setProp h.next "metadata"
        (JSVal.ref rA)).getProp h.next "metadata" = JSVal.ref rA := by
  exact Heap.getProp_setProp_self _ _ _ _ _ (Heap.get_alloc_self h _ hwf)

theorem getProp_ne_undef_get {h : Heap} {a : Nat} {k : String}
    (hne : h.getProp a k ≠ JSVal.undef) : ∃ o, h.get a = some o := by
  unfold Heap.getProp at hne
  cases hg : h.get a with
  | some o => exact ⟨o, rfl⟩
  | none => rw [hg] at hne; simp at hne

theorem alloc_setProp_get_frame (h : Heap) (o : JSObj) (k' : String) (v : JSVal)
    (b : Nat) (hb : b ≠ h.next) :
    (((h.alloc o).1).setProp h.next k' v).get b = h.get b := by
  rw [Heap.get_setProp_ne _ _ _ _ _ hb]
  exact Heap.get_alloc_ne h o b hb

theorem smHandler_heap_cases (h : Heap) (zoneV cbk err resp : JSVal) :
    ((setMetadataResponseHandler h zoneV cbk err resp).1) = h
    ∨ ∃ o, ((setMetadataResponseHandler h zoneV cbk err resp).1)
        = ((h.alloc o).1).setProp h.next "metadata" resp := by
  unfold setMetadataResponseHandler
  cases he : truthy err with
  | true => exact Or.inl rfl
  | false =>
    cases zoneV with
    | ref z =>
      cases resp with
      | undef => exact Or.inl rfl
      | null => exact Or.inl rfl
      | bool b => exact Or.inr ⟨_, rfl⟩
      | num n => exact Or.inr ⟨_, rfl⟩
      | str s => exact Or.inr ⟨_, rfl⟩
      | ref r => exact Or.inr ⟨_, rfl⟩
      | fn f => exact Or.inr ⟨_, rfl⟩
    | undef => exact Or.inl rfl
    | null => exact Or.inl rfl
    | bool b => exact Or.inl rfl
    | num n => exact Or.inl rfl
    | str s => exact Or.inl rfl
    | fn f => exact Or.inl rfl

theorem smHandler_get_frame (h : Heap) (zoneV cbk err resp : JSVal) (b : Nat)
    (hb : b ≠ h.next) :
    ((setMetadataResponseHandler h zoneV cbk err resp).1).get b = h.get b := by
  rcases smHandler_heap_cases h zoneV cbk err resp with hc | ⟨o, hc⟩
  · rw [hc]
  · rw [hc]
    exact alloc_setProp_get_frame h o "metadata" resp b hb

theorem smHandler_getProp_frame (h : Heap) (zoneV cbk err resp : JSVal) (b : Nat)
    (k : String) (hb : b ≠ h.next) :
    ((setMetadataResponseHandler h zoneV cbk err resp).1).getProp b k
      = h.getProp b k := by
  unfold Heap.getProp
  rw [smHandler_get_frame h zoneV cbk err resp b hb]

theorem setMetadata_ref_eq (h : Heap) (selfA a zA : Nat) (cb err resp : JSVal)
    (hz : h.getProp selfA "zone" = JSVal.ref zA)
    (haz : a ≠ zA) :
    setMetadata h selfA (JSVal.ref a) cb err resp
      = MethodOutcome.mk
          [HttpRequest.mk "PATCH" "/autoscalers"
            [("autoscaler", (injectedHeap h selfA a zA).getProp selfA "name")]
            (JSVal.ref a)]
          (setMetadataResponseHandler (injectedHeap h selfA a zA) (JSVal.ref zA)
            (if truthy cb then cb else JSVal.fn FnId.noop) err resp).1
          (setMetadataResponseHandler (injectedHeap h selfA a zA) (JSVal.ref zA)
            (if truthy cb then cb else JSVal.fn FnId.noop) err resp).2 := by
  have h2z : (h.setProp a "name" (h.getProp selfA "name")).getProp selfA "zone"
      = JSVal.ref zA := by
    rw [Heap.getProp_setProp_ne_key _ _ _ _ _ _ (by decide)]
    exact hz
  have h2zn : (h.setProp a "name" (h.getProp selfA "name")).getProp zA "name"
      = h.getProp zA "name" :=
    Heap.getProp_setProp_ne_addr _ _ _ _ _ _ (Ne.symm haz)
  simp only [setMetadata, truthy_ref, if_true, writeProp, h2z, readProp, h2zn, hz,
    injectedHeap]

theorem setMetadata_undef_eq (h : Heap) (selfA zA : Nat) (cb err resp : JSVal)
    (hwf : h.WF)
    (hz : h.getProp selfA "zone" = JSVal.ref zA)
    (hsz : zA < h.next) :
    setMetadata h selfA JSVal.undef cb err resp
      = MethodOutcome.mk
          [HttpRequest.mk "PATCH" "/autoscalers"
            [("autoscaler", h.getProp selfA "name")] (JSVal.ref h.next)]
          (setMetadataResponseHandler (injectedFreshHeap h selfA zA) (JSVal.ref zA)
            (if truthy cb then cb else JSVal.fn FnId.noop) err resp).1
          (setMetadataResponseHandler (injectedFreshHeap h selfA zA) (JSVal.ref zA)
            (if truthy cb then cb else JSVal.fn FnId.noop) err resp).2 := by
  have hself : ∃ o, h.get selfA = some o := by
    apply getProp_ne_undef_get
    rw [hz]
    simp
  rcases hself with ⟨so, hso⟩
  have hslt : selfA < h.next := Heap.WF.lt_of_get hwf hso
  have hsne : selfA ≠ h.next := Nat.ne_of_lt hslt
  have hzne : zA ≠ h.next := Nat.ne_of_lt hsz
  have h1n : ((h.alloc []).1).getProp selfA "name" = h.getProp selfA "name" :=
    Heap.getProp_alloc_ne h [] selfA "name" hsne
  have h2z : ((((h.alloc []).1)).setProp h.next "name"
        (h.getProp selfA "name")).getProp selfA "zone"
      = JSVal.ref zA := by
    rw [Heap.getProp_setProp_ne_addr _ _ _ _ _ _ hsne]
    rw [Heap.getProp_alloc_ne h [] selfA "zone" hsne]
    exact hz
  have h2zn : ((((h.alloc []).1)).setProp h.next "name"
        (h.getProp selfA "name")).getProp zA "name"
      = h.getProp zA "name" := by
    rw [Heap.getProp_setProp_ne_addr _ _ _ _ _ _ hzne]
    exact Heap.getProp_alloc_ne h [] zA "name" hzne
  have h3n : ((((h.alloc []).1).setProp h.next "name"
        (h.getProp selfA "name")).setProp h.next "zone"
        (h.getProp zA "name")).getProp selfA "name"
      = h.getProp selfA "name" := by
    rw [Heap.getProp_setProp_ne_addr _ _ _ _ _ _ hsne]
    rw [Heap.getProp_setProp_ne_addr _ _ _ _ _ _ hsne]
    exact Heap.getProp_alloc_ne h [] selfA "name" hsne
  simp only [setMetadata, truthy_undef, Bool.false_eq_true, if_false,
    Heap.alloc_snd, writeProp, h1n, readProp, h2z, h2zn, hz, injectedFreshHeap,
    h3n]

end MethodLemmas

/-- C1: For every successful delete the callback is invoked as
(null, operation, response): the operation is the fresh handle returned by
zone.operation(response.name) (allocated at address h.next), its identifier
equals response.name, and its metadata is the response object itself (the very
same heap reference). -/
theorem delete_success_invokes_callback
    (h : Heap) (selfA zA rA t : Nat) (err : JSVal)
    (hwf : h.WF)
    (hz : h.getProp selfA "zone" = JSVal.ref zA)
    (he : truthy err = false) :
    (delete h selfA (JSVal.fn (FnId.user t)) err (JSVal.ref rA)).result
        = JsOutcome.ok (some
            (CallbackCall.mk JSVal.null (JSVal.ref h.next) (JSVal.ref rA)))
    ∧ (delete h selfA (JSVal.fn (FnId.user t)) err (JSVal.ref rA)).heap.getProp
        h.next "name" = h.getProp rA "name"
    ∧ (delete h selfA (JSVal.fn (FnId.user t)) err (JSVal.ref rA)).heap.getProp
        h.next "metadata" = JSVal.ref rA := by
  have hstep :
      delete h selfA (JSVal.fn (FnId.user t)) err (JSVal.ref rA)
        = MethodOutcome.mk
            [HttpRequest.mk "DELETE"
              (asString (h.getProp selfA "baseUrl") ++ "/"
                ++ asString (h.getProp selfA "id")) [] JSVal.undef]
            (((h.alloc [("zone", JSVal.ref zA), ("name", h.getProp rA "name"),
                ("metadata", JSVal.undef)]).1).setProp h.next "metadata"
                (JSVal.ref rA))
            (JsOutcome.ok (some
              (CallbackCall.mk JSVal.null (JSVal.ref h.next) (JSVal.ref rA)))) := by
    rw [delete_eq, hz]
    rw [if_pos (truthy_fn (FnId.user t))]
    rw [deleteResponseHandler_success h zA rA _ err he]
    rfl
  rw [hstep]
  exact ⟨rfl, opHeap_name h zA rA hwf, opHeap_metadata h zA rA hwf⟩

/-- C1 witness: the theorem applied to the concrete heap H0, with the handle at
address 1, the zone at address 0 and a response at address 2 named op-123. -/
theorem delete_success_invokes_callback_wit :
    (delete H0 1 (JSVal.fn (FnId.user 7)) JSVal.null (JSVal.ref 2)).result
        = JsOutcome.ok (some
            (CallbackCall.mk JSVal.null (JSVal.ref H0.next) (JSVal.ref 2)))
    ∧ (delete H0 1 (JSVal.fn (FnId.user 7)) JSVal.null (JSVal.ref 2)).heap.getProp
        H0.next "name" = H0.getProp 2 "name"
    ∧ (delete H0 1 (JSVal.fn (FnId.user 7)) JSVal.null (JSVal.ref 2)).heap.getProp
        H0.next "metadata" = JSVal.ref 2 :=
  delete_success_invokes_callback H0 1 0 2 7 JSVal.null (by decide) (by decide) rfl

/-- C2: every setMetadata call (metadata object supplied, or omitted and
defaulted to a fresh empty object at address h.next) issues a PATCH to the
/autoscalers collection with query parameter autoscaler equal to the handle
name, and the JSON body is the metadata object itself with name set to the
handle name and zone set to the parent zone name, overriding any
caller-supplied values for those two keys and leaving every other property of
the body unchanged. -/
theorem setMetadata_patch_request_shape
    (h : Heap) (selfA zA a : Nat) (mo : JSObj) (mv cb err resp : JSVal)
    (nm zn : String)
    (hwf : h.WF)
    (hn : h.getProp selfA "name" = JSVal.str nm)
    (hz : h.getProp selfA "zone" = JSVal.ref zA)
    (hzn : h.getProp zA "name" = JSVal.str zn)
    (hm : (mv = JSVal.undef ∧ a = h.next ∧ mo = [])
        ∨ (mv = JSVal.ref a ∧ h.get a = some mo ∧ a ≠ zA)) :
    (setMetadata h selfA mv cb err resp).reqs
        = [HttpRequest.mk "PATCH" "/autoscalers"
            [("autoscaler", JSVal.str nm)] (JSVal.ref a)]
    ∧ (setMetadata h selfA mv cb err resp).heap.get a
        = some (objSet (objSet mo "name" (JSVal.str nm)) "zone" (JSVal.str zn)) := by
  have hzs : ∃ o, h.get zA = some o := getProp_ne_undef_get (by rw [hzn]; simp)
  rcases hzs with ⟨zo, hzo⟩
  have hzlt : zA < h.next := Heap.WF.lt_of_get hwf hzo
  rcases hm with ⟨hmv, ha, hmo⟩ | ⟨hmv, hma, haz⟩
  · subst hmv; subst ha; subst hmo
    rw [setMetadata_undef_eq h selfA zA cb err resp hwf hz hzlt]
    refine ⟨by rw [hn], ?_⟩
    have hfr : h.next ≠ (injectedFreshHeap h selfA zA).next :=
      Nat.ne_of_lt (Nat.lt_succ_self h.next)
    show ((setMetadataResponseHandler (injectedFreshHeap h selfA zA) _ _ err
        resp).1).get h.next = _
    rw [smHandler_get_frame _ _ _ _ _ _ hfr]
    unfold injectedFreshHeap
    rw [Heap.get_setProp_self, Heap.get_setProp_self,
      Heap.get_alloc_self h [] hwf, hn, hzn]
    rfl
  · subst hmv
    have halt : a < h.next := Heap.WF.lt_of_get hwf hma
    rw [setMetadata_ref_eq h selfA a zA cb err resp hz haz]
    have hinjname : (injectedHeap h selfA a zA).getProp selfA "name"
        = JSVal.str nm := by
      by_cases hsa : a = selfA
      · subst hsa
        unfold injectedHeap
        rw [Heap.getProp_setProp_ne_key _ _ _ _ _ _ (by decide)]
        rw [Heap.getProp_setProp_self _ _ _ _ _ hma]
        exact hn
      · unfold injectedHeap
        rw [Heap.getProp_setProp_ne_addr _ _ _ _ _ _ (Ne.symm hsa)]
        rw [Heap.getProp_setProp_ne_addr _ _ _ _ _ _ (Ne.symm hsa)]
        exact hn
    refine ⟨by rw [hinjname], ?_⟩
    have hfr : a ≠ (injectedHeap h selfA a zA).next := Nat.ne_of_lt halt
    show ((setMetadataResponseHandler (injectedHeap h selfA a zA) _ _ err
        resp).1).get a = _
    rw [smHandler_get_frame _ _ _ _ _ _ hfr]
    unfold injectedHeap
    rw [Heap.get_setProp_self, Heap.get_setProp_self, hma, hn, hzn]
    rfl

/-- C2 witness: setMetadata on the concrete heap H0 with the metadata object
at address 3, whose caller-supplied name and zone values are overridden. -/
theorem setMetadata_patch_request_shape_wit :
    (setMetadata H0 1 (JSVal.ref 3) (JSVal.fn (FnId.user 7)) JSVal.null
        (JSVal.ref 2)).reqs
        = [HttpRequest.mk "PATCH" "/autoscalers"
            [("autoscaler", JSVal.str "a1")] (JSVal.ref 3)]
    ∧ (setMetadata H0 1 (JSVal.ref 3) (JSVal.fn (FnId.user 7)) JSVal.null
        (JSVal.ref 2)).heap.get 3
        = some (objSet (objSet
            [("description", JSVal.str "x"), ("name", JSVal.str "evil"),
             ("zone", JSVal.str "elsewhere")] "name" (JSVal.str "a1")) "zone"
            (JSVal.str "us-central1-a")) :=
  setMetadata_patch_request_shape H0 1 0 3
    [("description", JSVal.str "x"), ("name", JSVal.str "evil"),
     ("zone", JSVal.str "elsewhere")]
    (JSVal.ref 3) (JSVal.fn (FnId.user 7)) JSVal.null (JSVal.ref 2)
    "a1" "us-central1-a"
    (by decide) (by decide) (by decide) (by decide)
    (Or.inr ⟨rfl, by decide, by decide⟩)

/-- C3: on a failing delete or setMetadata the callback receives
(error, null, response) with the error propagated unchanged from the request
layer and the operation slot exactly null; no Operation handle is constructed
on the error path (delete leaves the heap untouched, setMetadata allocates
nothing beyond the in-place injection into the caller metadata object). -/
theorem error_path_yields_null_op
    (h : Heap) (selfA zA a t : Nat) (err resp : JSVal)
    (hz : h.getProp selfA "zone" = JSVal.ref zA)
    (haz : a ≠ zA)
    (he : truthy err = true) :
    (delete h selfA (JSVal.fn (FnId.user t)) err resp).result
        = JsOutcome.ok (some (CallbackCall.mk err JSVal.null resp))
    ∧ (delete h selfA (JSVal.fn (FnId.user t)) err resp).heap = h
    ∧ (setMetadata h selfA (JSVal.ref a) (JSVal.fn (FnId.user t)) err resp).result
        = JsOutcome.ok (some (CallbackCall.mk err JSVal.null resp))
    ∧ (setMetadata h selfA (JSVal.ref a) (JSVal.fn (FnId.user t)) err
        resp).heap.next = h.next := by
  refine ⟨?_, ?_, ?_, ?_⟩
  · rw [delete_eq]
    rw [deleteResponseHandler_err _ _ _ _ _ he]
    rfl
  · rw [delete_eq]
    rw [deleteResponseHandler_err _ _ _ _ _ he]
  · rw [setMetadata_ref_eq h selfA a zA _ err resp hz haz]
    show (setMetadataResponseHandler _ _ _ err resp).2 = _
    rw [← responseHandlers_agree]
    rw [deleteResponseHandler_err _ _ _ _ _ he]
    rfl
  · rw [setMetadata_ref_eq h selfA a zA _ err resp hz haz]
    show (setMetadataResponseHandler _ _ _ err resp).1.next = _
    rw [← responseHandlers_agree]
    rw [deleteResponseHandler_err _ _ _ _ _ he]
    rfl

/-- C3 witness: a failing delete and setMetadata on the concrete heap H0 with
a string error value. -/
theorem error_path_yields_null_op_wit :
    (delete H0 1 (JSVal.fn (FnId.user 7)) (JSVal.str "boom") (JSVal.ref 2)).result
        = JsOutcome.ok (some
            (CallbackCall.mk (JSVal.str "boom") JSVal.null (JSVal.ref 2)))
    ∧ (delete H0 1 (JSVal.fn (FnId.user 7)) (JSVal.str "boom")
        (JSVal.ref 2)).heap = H0
    ∧ (setMetadata H0 1 (JSVal.ref 3) (JSVal.fn (FnId.user 7)) (JSVal.str "boom")
        (JSVal.ref 2)).result
        = JsOutcome.ok (some
            (CallbackCall.mk (JSVal.str "boom") JSVal.null (JSVal.ref 2)))
    ∧ (setMetadata H0 1 (JSVal.ref 3) (JSVal.fn (FnId.user 7)) (JSVal.str "boom")
        (JSVal.ref 2)).heap.next = H0.next :=
  error_path_yields_null_op H0 1 0 3 7 (JSVal.str "boom") (JSVal.ref 2)
    (by decide) (by decide) (by decide)

/-- C4: the success post-processing of setMetadata is the very same function
of (zone, response) as that of delete: for every non-error transport outcome
the two response continuations produce identical heaps, requests and callback
invocations (the two definitions are translated separately from the two
duplicated blocks of the source, lines 173-183 and 225-235). -/
theorem success_postprocessing_identical
    (h : Heap) (zoneV cbk err resp : JSVal) (he : truthy err = false) :
    deleteResponseHandler h zoneV cbk err resp
      = setMetadataResponseHandler h zoneV cbk err resp := rfl

/-- C4 witness: the two continuations coincide on the concrete heap H0 with a
successful response. -/
theorem success_postprocessing_identical_wit :
    deleteResponseHandler H0 (JSVal.ref 0) (JSVal.fn (FnId.user 7)) JSVal.null
        (JSVal.ref 2)
      = setMetadataResponseHandler H0 (JSVal.ref 0) (JSVal.fn (FnId.user 7))
        JSVal.null (JSVal.ref 2) :=
  success_postprocessing_identical H0 (JSVal.ref 0) (JSVal.fn (FnId.user 7))
    JSVal.null (JSVal.ref 2) (by decide)

/-- C5: omitting the callback never throws: with the callback argument
undefined, both delete and setMetadata substitute util.noop and complete
normally for both failing and successful transport outcomes; async failures
are delivered only through the callback arguments, never thrown. -/
theorem omitted_callback_no_throw
    (h : Heap) (selfA zA a : Nat) (mv err resp : JSVal)
    (hwf : h.WF)
    (hz : h.getProp selfA "zone" = JSVal.ref zA)
    (hzlt : zA < h.next)
    (hm : mv = JSVal.undef ∨ (mv = JSVal.ref a ∧ a ≠ zA))
    (hresp : truthy err = true ∨ ∃ rA, resp = JSVal.ref rA) :
    (delete h selfA JSVal.undef err resp).result = JsOutcome.ok none
    ∧ (setMetadata h selfA mv JSVal.undef err resp).result
        = JsOutcome.ok none := by
  have hnoop : ∀ (hh : Heap),
      (deleteResponseHandler hh (JSVal.ref zA) (JSVal.fn FnId.noop) err resp).2
        = JsOutcome.ok none := by
    intro hh
    cases het : truthy err with
    | true =>
      rw [deleteResponseHandler_err _ _ _ _ _ het]
      rfl
    | false =>
      rcases hresp with hr | ⟨rA, hr⟩
      · rw [het] at hr
        exact absurd hr (by simp)
      · subst hr
        rw [deleteResponseHandler_success _ zA rA _ _ het]
        rfl
  constructor
  · rw [delete_eq, hz]
    exact hnoop h
  · rcases hm with hmv | ⟨hmv, haz⟩
    · subst hmv
      rw [setMetadata_undef_eq h selfA zA _ err resp hwf hz hzlt]
      show (setMetadataResponseHandler _ _ _ err resp).2 = _
      rw [← responseHandlers_agree]
      exact hnoop _
    · subst hmv
      rw [setMetadata_ref_eq h selfA a zA _ err resp hz haz]
      show (setMetadataResponseHandler _ _ _ err resp).2 = _
      rw [← responseHandlers_agree]
      exact hnoop _

/-- C5 witness: on the concrete heap H0 delete with a successful outcome and
setMetadata with the metadata object at address 3, both without a callback,
complete normally. -/
theorem omitted_callback_no_throw_wit :
    (delete H0 1 JSVal.undef JSVal.null (JSVal.ref 2)).result = JsOutcome.ok none
    ∧ (setMetadata H0 1 (JSVal.ref 3) JSVal.undef JSVal.null
        (JSVal.ref 2)).result = JsOutcome.ok none :=
  omitted_callback_no_throw H0 1 0 3 (JSVal.ref 3) JSVal.null (JSVal.ref 2)
    (by decide) (by decide) (by decide) (Or.inr ⟨rfl, by decide⟩)
    (Or.inr ⟨2, rfl⟩)

/-- C6: when a successful response lacks the expected name field neither
delete nor setMetadata validates it: the callback still receives a null error
and a freshly built Operation handle whose identifier is undefined (silent
failure rather than an explicit error). -/
theorem missing_name_silent_op
    (h : Heap) (selfA zA a rA t : Nat) (mo ro : JSObj) (err : JSVal)
    (hwf : h.WF)
    (hz : h.getProp selfA "zone" = JSVal.ref zA)
    (hrg : h.get rA = some ro)
    (hron : objGet ro "name" = JSVal.undef)
    (he : truthy err = false)
    (hma : h.get a = some mo)
    (haz : a ≠ zA)
    (har : a ≠ rA) :
    (delete h selfA (JSVal.fn (FnId.user t)) err (JSVal.ref rA)).result
        = JsOutcome.ok (some
            (CallbackCall.mk JSVal.null (JSVal.ref h.next) (JSVal.ref rA)))
    ∧ (delete h selfA (JSVal.fn (FnId.user t)) err (JSVal.ref rA)).heap.getProp
        h.next "name" = JSVal.undef
    ∧ (setMetadata h selfA (JSVal.ref a) (JSVal.fn (FnId.user t)) err
        (JSVal.ref rA)).result
        = JsOutcome.ok (some
            (CallbackCall.mk JSVal.null (JSVal.ref h.next) (JSVal.ref rA)))
    ∧ (setMetadata h selfA (JSVal.ref a) (JSVal.fn (FnId.user t)) err
        (JSVal.ref rA)).heap.getProp h.next "name" = JSVal.undef := by
  have hrn : h.getProp rA "name" = JSVal.undef := by
    simp only [Heap.getProp, hrg]
    exact hron
  have hwfI : (injectedHeap h selfA a zA).WF :=
    Heap.WF.setProp (Heap.WF.setProp hwf a "name" _) a "zone" _
  have hIr : (injectedHeap h selfA a zA).getProp rA "name"
      = h.getProp rA "name" := by
    unfold injectedHeap
    rw [Heap.getProp_setProp_ne_addr _ _ _ _ _ _ (Ne.symm har)]
    rw [Heap.getProp_setProp_ne_addr _ _ _ _ _ _ (Ne.symm har)]
  refine ⟨?_, ?_, ?_, ?_⟩
  · rw [delete_eq, hz, if_pos (truthy_fn (FnId.user t))]
    rw [deleteResponseHandler_success h zA rA _ err he]
    rfl
  · rw [delete_eq, hz, if_pos (truthy_fn (FnId.user t))]
    rw [deleteResponseHandler_success h zA rA _ err he]
    show (((h.alloc _).1).setProp h.next "metadata" _).getProp h.next "name" = _
    rw [opHeap_name h zA rA hwf]
    exact hrn
  · rw [setMetadata_ref_eq h selfA a zA _ err (JSVal.ref rA) hz haz]
    show (setMetadataResponseHandler _ _ _ err _).2 = _
    rw [← responseHandlers_agree]
    rw [deleteResponseHandler_success (injectedHeap h selfA a zA) zA rA _ err he]
    rfl
  · rw [setMetadata_ref_eq h selfA a zA _ err (JSVal.ref rA) hz haz]
    show (setMetadataResponseHandler _ _ _ err _).1.getProp h.next "name" = _
    rw [← responseHandlers_agree]
    rw [deleteResponseHandler_success (injectedHeap h selfA a zA) zA rA _ err he]
    show ((((injectedHeap h selfA a zA).alloc _).1).setProp
        (injectedHeap h selfA a zA).next "metadata" _).getProp
        (injectedHeap h selfA a zA).next "name" = _
    rw [opHeap_name (injectedHeap h selfA a zA) zA rA hwfI]
    rw [hIr]
    exact hrn

/-- C6 witness: on the concrete heap H0 the response at address 4 has no name
field; both methods still hand the callback an Operation whose identifier is
undefined. -/
theorem missing_name_silent_op_wit :
    (delete H0 1 (JSVal.fn (FnId.user 7)) JSVal.null (JSVal.ref 4)).result
        = JsOutcome.ok (some
            (CallbackCall.mk JSVal.null (JSVal.ref H0.next) (JSVal.ref 4)))
    ∧ (delete H0 1 (JSVal.fn (FnId.user 7)) JSVal.null (JSVal.ref 4)).heap.getProp
        H0.next "name" = JSVal.undef
    ∧ (setMetadata H0 1 (JSVal.ref 3) (JSVal.fn (FnId.user 7)) JSVal.null
        (JSVal.ref 4)).result
        = JsOutcome.ok (some
            (CallbackCall.mk JSVal.null (JSVal.ref H0.next) (JSVal.ref 4)))
    ∧ (setMetadata H0 1 (JSVal.ref 3) (JSVal.fn (FnId.user 7)) JSVal.null
        (JSVal.ref 4)).heap.getProp H0.next "name" = JSVal.undef :=
  missing_name_silent_op H0 1 0 3 4 7
    [("description", JSVal.str "x"), ("name", JSVal.str "evil"),
     ("zone", JSVal.str "elsewhere")]
    [("status", JSVal.str "PENDING")] JSVal.null
    (by decide) (by decide) (by decide) (by decide) (by decide) (by decide)
    (by decide) (by decide)

/-- C7 counterexample: the claim fails as stated.  Calling setMetadata with
the autoscaler handle itself as the metadata argument executes metadata.zone =
this.zone.name, which reassigns the handle zone property: the reference to the
zone object is overwritten with the zone name string. -/
theorem handle_zone_reassigned_cex :
    (setMetadata H0 1 (JSVal.ref 1) (JSVal.fn (FnId.user 0)) JSVal.null
        (JSVal.ref 2)).heap.getProp 1 "zone" ≠ H0.getProp 1 "zone" := by
  decide

/-- C7 (amended): provided the metadata argument passed to setMetadata is not
the handle itself (it is some other object, or omitted), the handle name and
zone properties are never changed after construction by delete, setMetadata or
the delegated generic getMetadata; only the handle metadata field may
change. -/
theorem handle_identity_immutable_unless_aliased
    (h : Heap) (selfA zA a : Nat) (mv cb err resp gerr gresp : JSVal)
    (hwf : h.WF)
    (hso : ∃ so, h.get selfA = some so)
    (hz : h.getProp selfA "zone" = JSVal.ref zA)
    (hzd : zA < h.next)
    (hm : mv = JSVal.undef ∨ (mv = JSVal.ref a ∧ a ≠ selfA ∧ a ≠ zA)) :
    ((delete h selfA cb err resp).heap.getProp selfA "name"
          = h.getProp selfA "name"
      ∧ (delete h selfA cb err resp).heap.getProp selfA "zone"
          = h.getProp selfA "zone")
    ∧ ((setMetadata h selfA mv cb err resp).heap.getProp selfA "name"
          = h.getProp selfA "name"
      ∧ (setMetadata h selfA mv cb err resp).heap.getProp selfA "zone"
          = h.getProp selfA "zone")
    ∧ ((genericGetMetadata h selfA gerr gresp).getProp selfA "name"
          = h.getProp selfA "name"
      ∧ (genericGetMetadata h selfA gerr gresp).getProp selfA "zone"
          = h.getProp selfA "zone") := by
  rcases hso with ⟨so, hso⟩
  have hslt : selfA < h.next := Heap.WF.lt_of_get hwf hso
  have hsne : selfA ≠ h.next := Nat.ne_of_lt hslt
  have hdel : ∀ k, (delete h selfA cb err resp).heap.getProp selfA k
      = h.getProp selfA k := by
    intro k
    rw [delete_eq]
    show ((deleteResponseHandler h _ _ err resp).1).getProp selfA k = _
    rw [responseHandlers_agree]
    exact smHandler_getProp_frame _ _ _ _ _ _ _ hsne
  have hsetm : ∀ k, (setMetadata h selfA mv cb err resp).heap.getProp selfA k
      = h.getProp selfA k := by
    intro k
    rcases hm with hmv | ⟨hmv, has, haz⟩
    · subst hmv
      rw [setMetadata_undef_eq h selfA zA cb err resp hwf hz hzd]
      show ((setMetadataResponseHandler (injectedFreshHeap h selfA zA) _ _ err
          resp).1).getProp selfA k = _
      have hfr : selfA ≠ (injectedFreshHeap h selfA zA).next :=
        Nat.ne_of_lt (Nat.lt_succ_of_lt hslt)
      rw [smHandler_getProp_frame _ _ _ _ _ _ _ hfr]
      unfold injectedFreshHeap
      rw [Heap.getProp_setProp_ne_addr _ _ _ _ _ _ hsne]
      rw [Heap.getProp_setProp_ne_addr _ _ _ _ _ _ hsne]
      exact Heap.getProp_alloc_ne h [] selfA k hsne
    · subst hmv
      rw [setMetadata_ref_eq h selfA a zA cb err resp hz haz]
      show ((setMetadataResponseHandler (injectedHeap h selfA a zA) _ _ err
          resp).1).getProp selfA k = _
      have hfr : selfA ≠ (injectedHeap h selfA a zA).next := hsne
      rw [smHandler_getProp_frame _ _ _ _ _ _ _ hfr]
      unfold injectedHeap
      rw [Heap.getProp_setProp_ne_addr _ _ _ _ _ _ (Ne.symm has)]
      rw [Heap.getProp_setProp_ne_addr _ _ _ _ _ _ (Ne.symm has)]
  have hgen : ∀ k, k ≠ "metadata" →
      (genericGetMetadata h selfA gerr gresp).getProp selfA k
        = h.getProp selfA k := by
    intro k hk
    unfold genericGetMetadata
    by_cases he2 : truthy gerr = true
    · rw [if_pos he2]
    · rw [if_neg he2]
      exact Heap.getProp_setProp_ne_key _ _ _ _ _ _ hk
  exact ⟨⟨hdel "name", hdel "zone"⟩, ⟨hsetm "name", hsetm "zone"⟩,
    ⟨hgen "name" (by decide), hgen "zone" (by decide)⟩⟩

/-- C7 witness for the amended theorem: on the concrete heap H0 with the
metadata object at address 3 (distinct from the handle), name and zone of the
handle survive delete, setMetadata and the generic getMetadata. -/
theorem handle_identity_immutable_unless_aliased_wit :
    ((delete H0 1 (JSVal.fn (FnId.user 7)) JSVal.null (JSVal.ref 2)).heap.getProp
          1 "name" = H0.getProp 1 "name"
      ∧ (delete H0 1 (JSVal.fn (FnId.user 7)) JSVal.null
          (JSVal.ref 2)).heap.getProp 1 "zone" = H0.getProp 1 "zone")
    ∧ ((setMetadata H0 1 (JSVal.ref 3) (JSVal.fn (FnId.user 7)) JSVal.null
          (JSVal.ref 2)).heap.getProp 1 "name" = H0.getProp 1 "name"
      ∧ (setMetadata H0 1 (JSVal.ref 3) (JSVal.fn (FnId.user 7)) JSVal.null
          (JSVal.ref 2)).heap.getProp 1 "zone" = H0.getProp 1 "zone")
    ∧ ((genericGetMetadata H0 1 JSVal.null (JSVal.ref 2)).getProp 1 "name"
          = H0.getProp 1 "name"
      ∧ (genericGetMetadata H0 1 JSVal.null (JSVal.ref 2)).getProp 1 "zone"
          = H0.getProp 1 "zone") :=
  handle_identity_immutable_unless_aliased H0 1 0 3 (JSVal.ref 3)
    (JSVal.fn (FnId.user 7)) JSVal.null (JSVal.ref 2) JSVal.null (JSVal.ref 2)
    (by decide)
    ⟨[("baseUrl", JSVal.str "/autoscalers"), ("id", JSVal.str "a1"),
      ("name", JSVal.str "a1"), ("zone", JSVal.ref 0),
      ("metadata", JSVal.str "old")], rfl⟩
    (by decide) (by decide) (Or.inr ⟨rfl, by decide, by decide⟩)

/-- C8: constructing an Autoscaler performs no network call (the request trace
of construction is empty) and yields a handle (at the fresh address h.next + 1)
configured with base path /autoscalers, identifier equal to the name, name and
zone assigned, the capability table (at address h.next) declaring create,
exists, get and getMetadata supported, and the zone createAutoscaler function
bound to the zone as the create delegate. -/
theorem constructor_no_io_and_config (h : Heap) (zoneA : Nat) (nm : String)
    (hwf : h.WF) :
    (constructor h zoneA nm).2.2 = []
    ∧ (constructor h zoneA nm).2.1 = h.next + 1
    ∧ (constructor h zoneA nm).1.getProp (h.next + 1) "baseUrl"
        = JSVal.str "/autoscalers"
    ∧ (constructor h zoneA nm).1.getProp (h.next + 1) "id" = JSVal.str nm
    ∧ (constructor h zoneA nm).1.getProp (h.next + 1) "createMethod"
        = JSVal.fn (FnId.boundCreateAutoscaler zoneA)
    ∧ (constructor h zoneA nm).1.getProp (h.next + 1) "methods"
        = JSVal.ref h.next
    ∧ (constructor h zoneA nm).1.getProp (h.next + 1) "name" = JSVal.str nm
    ∧ (constructor h zoneA nm).1.getProp (h.next + 1) "zone" = JSVal.ref zoneA
    ∧ (constructor h zoneA nm).1.getProp h.next "create" = JSVal.bool true
    ∧ (constructor h zoneA nm).1.getProp h.next "exists" = JSVal.bool true
    ∧ (constructor h zoneA nm).1.getProp h.next "get" = JSVal.bool true
    ∧ (constructor h zoneA nm).1.getProp h.next "getMetadata"
        = JSVal.bool true := by
  have hwf1 : ((h.alloc
      [("create", JSVal.bool true), ("exists", JSVal.bool true),
       ("get", JSVal.bool true), ("getMetadata", JSVal.bool true)]).1).WF :=
    Heap.WF.alloc hwf _
  have hne : h.next ≠ h.next + 1 := Nat.ne_of_lt (Nat.lt_succ_self h.next)
  have hgetSelf : ((((h.alloc
      [("create", JSVal.bool true), ("exists", JSVal.bool true),
       ("get", JSVal.bool true), ("getMetadata", JSVal.bool true)]).1).alloc
      [("parent", JSVal.ref zoneA), ("baseUrl", JSVal.str "/autoscalers"),
       ("id", JSVal.str nm),
       ("createMethod", JSVal.fn (FnId.boundCreateAutoscaler zoneA)),
       ("methods", JSVal.ref h.next)]).1).get (h.next + 1)
      = some [("parent", JSVal.ref zoneA), ("baseUrl", JSVal.str "/autoscalers"),
       ("id", JSVal.str nm),
       ("createMethod", JSVal.fn (FnId.boundCreateAutoscaler zoneA)),
       ("methods", JSVal.ref h.next)] :=
    Heap.get_alloc_self _ _ hwf1
  have hother : ∀ k, k ≠ "name" → k ≠ "zone" →
      (constructor h zoneA nm).1.getProp (h.next + 1) k
        = objGet [("parent", JSVal.ref zoneA),
            ("baseUrl", JSVal.str "/autoscalers"), ("id", JSVal.str nm),
            ("createMethod", JSVal.fn (FnId.boundCreateAutoscaler zoneA)),
            ("methods", JSVal.ref h.next)] k := by
    intro k hk1 hk2
    simp only [constructor, Heap.alloc_snd, Heap.next_alloc]
    rw [Heap.getProp_setProp_ne_key _ _ _ _ _ _ hk2]
    rw [Heap.getProp_setProp_ne_key _ _ _ _ _ _ hk1]
    unfold Heap.getProp
    rw [hgetSelf]
  have hname : (constructor h zoneA nm).1.getProp (h.next + 1) "name"
      = JSVal.str nm := by
    simp only [constructor, Heap.alloc_snd, Heap.next_alloc]
    rw [Heap.getProp_setProp_ne_key _ _ _ _ _ _ (by decide)]
    exact Heap.getProp_setProp_self _ _ _ _ _ hgetSelf
  have hzone : (constructor h zoneA nm).1.getProp (h.next + 1) "zone"
      = JSVal.ref zoneA := by
    simp only [constructor, Heap.alloc_snd, Heap.next_alloc]
    exact Heap.getProp_setProp_self _ _ _ _
      (objSet [("parent", JSVal.ref zoneA),
        ("baseUrl", JSVal.str "/autoscalers"), ("id", JSVal.str nm),
        ("createMethod", JSVal.fn (FnId.boundCreateAutoscaler zoneA)),
        ("methods", JSVal.ref h.next)] "name" (JSVal.str nm))
      (by rw [Heap.get_setProp_self, hgetSelf]; rfl)
  have hmeth : ∀ k, (constructor h zoneA nm).1.getProp h.next k
      = objGet [("create", JSVal.bool true), ("exists", JSVal.bool true),
          ("get", JSVal.bool true), ("getMetadata", JSVal.bool true)] k := by
    intro k
    simp only [constructor, Heap.alloc_snd, Heap.next_alloc]
    rw [Heap.getProp_setProp_ne_addr _ _ _ _ _ _ hne]
    rw [Heap.getProp_setProp_ne_addr _ _ _ _ _ _ hne]
    rw [Heap.getProp_alloc_ne _ _ _ _ hne]
    exact Heap.getProp_alloc_self h _ k hwf
  refine ⟨rfl, rfl, ?_, ?_, ?_, ?_, hname, hzone, ?_, ?_, ?_, ?_⟩
  · rw [hother "baseUrl" (by decide) (by decide)]
    simp [objGet]
  · rw [hother "id" (by decide) (by decide)]
    simp [objGet]
  · rw [hother "createMethod" (by decide) (by decide)]
    simp [objGet]
  · rw [hother "methods" (by decide) (by decide)]
    simp [objGet]
  · rw [hmeth "create"]
    simp [objGet]
  · rw [hmeth "exists"]
    simp [objGet]
  · rw [hmeth "get"]
    simp [objGet]
  · rw [hmeth "getMetadata"]
    simp [objGet]

/-- C8 witness: constructing the handle a1 in the zone at address 0 of the
concrete heap H0. -/
theorem constructor_no_io_and_config_wit :
    (constructor H0 0 "a1").2.2 = []
    ∧ (constructor H0 0 "a1").2.1 = H0.next + 1
    ∧ (constructor H0 0 "a1").1.getProp (H0.next + 1) "baseUrl"
        = JSVal.str "/autoscalers"
    ∧ (constructor H0 0 "a1").1.getProp (H0.next + 1) "id" = JSVal.str "a1"
    ∧ (constructor H0 0 "a1").1.getProp (H0.next + 1) "createMethod"
        = JSVal.fn (FnId.boundCreateAutoscaler 0)
    ∧ (constructor H0 0 "a1").1.getProp (H0.next + 1) "methods"
        = JSVal.ref H0.next
    ∧ (constructor H0 0 "a1").1.getProp (H0.next + 1) "name" = JSVal.str "a1"
    ∧ (constructor H0 0 "a1").1.getProp (H0.next + 1) "zone" = JSVal.ref 0
    ∧ (constructor H0 0 "a1").1.getProp H0.next "create" = JSVal.bool true
    ∧ (constructor H0 0 "a1").1.getProp H0.next "exists" = JSVal.bool true
    ∧ (constructor H0 0 "a1").1.getProp H0.next "get" = JSVal.bool true
    ∧ (constructor H0 0 "a1").1.getProp H0.next "getMetadata"
        = JSVal.bool true :=
  constructor_no_io_and_config H0 0 "a1" (by decide)

/-- C9: setMetadata mutates the caller-supplied metadata object in place: the
very object passed in (not a copy) is sent as the request body, its name and
zone properties are written onto it, and no other property of the caller
object is modified (the final body object is exactly the original with name
and zone set). -/
theorem setMetadata_mutates_argument_in_place
    (h : Heap) (selfA zA a : Nat) (mo : JSObj) (cb err resp : JSVal)
    (nm zn : String)
    (hwf : h.WF)
    (hn : h.getProp selfA "name" = JSVal.str nm)
    (hz : h.getProp selfA "zone" = JSVal.ref zA)
    (hzn : h.getProp zA "name" = JSVal.str zn)
    (hma : h.get a = some mo)
    (haz : a ≠ zA) :
    (setMetadata h selfA (JSVal.ref a) cb err resp).reqs.map HttpRequest.json
        = [JSVal.ref a]
    ∧ (setMetadata h selfA (JSVal.ref a) cb err resp).heap.get a
        = some (objSet (objSet mo "name" (JSVal.str nm)) "zone"
            (JSVal.str zn)) := by
  have halt : a < h.next := Heap.WF.lt_of_get hwf hma
  rw [setMetadata_ref_eq h selfA a zA cb err resp hz haz]
  refine ⟨rfl, ?_⟩
  have hfr : a ≠ (injectedHeap h selfA a zA).next := Nat.ne_of_lt halt
  show ((setMetadataResponseHandler (injectedHeap h selfA a zA) _ _ err
      resp).1).get a = _
  rw [smHandler_get_frame _ _ _ _ _ _ hfr]
  unfold injectedHeap
  rw [Heap.get_setProp_self, Heap.get_setProp_self, hma, hn, hzn]
  rfl

/-- C9 witness: on the concrete heap H0 the object at address 3 is sent as the
body itself and is updated in place, its description property untouched. -/
theorem setMetadata_mutates_argument_in_place_wit :
    (setMetadata H0 1 (JSVal.ref 3) (JSVal.fn (FnId.user 7)) JSVal.null
        (JSVal.ref 2)).reqs.map HttpRequest.json = [JSVal.ref 3]
    ∧ (setMetadata H0 1 (JSVal.ref 3) (JSVal.fn (FnId.user 7)) JSVal.null
        (JSVal.ref 2)).heap.get 3
        = some (objSet (objSet
            [("description", JSVal.str "x"), ("name", JSVal.str "evil"),
             ("zone", JSVal.str "elsewhere")] "name" (JSVal.str "a1")) "zone"
            (JSVal.str "us-central1-a")) :=
  setMetadata_mutates_argument_in_place H0 1 0 3
    [("description", JSVal.str "x"), ("name", JSVal.str "evil"),
     ("zone", JSVal.str "elsewhere")]
    (JSVal.fn (FnId.user 7)) JSVal.null (JSVal.ref 2) "a1" "us-central1-a"
    (by decide) (by decide) (by decide) (by decide) (by decide) (by decide)

/-- C10: neither delete nor setMetadata writes the handle own metadata field,
on success or on failure: the response is assigned only as the metadata of the
freshly built Operation handle, so the autoscaler handle stored metadata is
unchanged - even when the metadata argument aliases the handle itself. -/
theorem handle_metadata_field_preserved
    (h : Heap) (selfA zA a : Nat) (mv cb err resp : JSVal)
    (hwf : h.WF)
    (hso : ∃ so, h.get selfA = some so)
    (hz : h.getProp selfA "zone" = JSVal.ref zA)
    (hzd : zA < h.next)
    (hm : mv = JSVal.undef ∨ (mv = JSVal.ref a ∧ a ≠ zA)) :
    (delete h selfA cb err resp).heap.getProp selfA "metadata"
        = h.getProp selfA "metadata"
    ∧ (setMetadata h selfA mv cb err resp).heap.getProp selfA "metadata"
        = h.getProp selfA "metadata" := by
  rcases hso with ⟨so, hso⟩
  have hslt : selfA < h.next := Heap.WF.lt_of_get hwf hso
  have hsne : selfA ≠ h.next := Nat.ne_of_lt hslt
  constructor
  · rw [delete_eq]
    show ((deleteResponseHandler h _ _ err resp).1).getProp selfA "metadata" = _
    rw [responseHandlers_agree]
    exact smHandler_getProp_frame _ _ _ _ _ _ _ hsne
  · rcases hm with hmv | ⟨hmv, haz⟩
    · subst hmv
      rw [setMetadata_undef_eq h selfA zA cb err resp hwf hz hzd]
      show ((setMetadataResponseHandler (injectedFreshHeap h selfA zA) _ _ err
          resp).1).getProp selfA "metadata" = _
      have hfr : selfA ≠ (injectedFreshHeap h selfA zA).next :=
        Nat.ne_of_lt (Nat.lt_succ_of_lt hslt)
      rw [smHandler_getProp_frame _ _ _ _ _ _ _ hfr]
      unfold injectedFreshHeap
      rw [Heap.getProp_setProp_ne_addr _ _ _ _ _ _ hsne]
      rw [Heap.getProp_setProp_ne_addr _ _ _ _ _ _ hsne]
      exact Heap.getProp_alloc_ne h [] selfA "metadata" hsne
    · subst hmv
      rw [setMetadata_ref_eq h selfA a zA cb err resp hz haz]
      show ((setMetadataResponseHandler (injectedHeap h selfA a zA) _ _ err
          resp).1).getProp selfA "metadata" = _
      have hfr : selfA ≠ (injectedHeap h selfA a zA).next := hsne
      rw [smHandler_getProp_frame _ _ _ _ _ _ _ hfr]
      unfold injectedHeap
      rw [Heap.getProp_setProp_ne_key _ _ _ _ _ _ (by decide)]
      rw [Heap.getProp_setProp_ne_key _ _ _ _ _ _ (by decide)]

/-- C10 witness: on the concrete heap H0, with the metadata argument aliasing
the handle itself, the handle stored metadata survives both methods. -/
theorem handle_metadata_field_preserved_wit :
    (delete H0 1 (JSVal.fn (FnId.user 7)) JSVal.null (JSVal.ref 2)).heap.getProp
        1 "metadata" = H0.getProp 1 "metadata"
    ∧ (setMetadata H0 1 (JSVal.ref 1) (JSVal.fn (FnId.user 7)) JSVal.null
        (JSVal.ref 2)).heap.getProp 1 "metadata" = H0.getProp 1 "metadata" :=
  handle_metadata_field_preserved H0 1 0 1 (JSVal.ref 1)
    (JSVal.fn (FnId.user 7)) JSVal.null (JSVal.ref 2)
    (by decide)
    ⟨[("baseUrl", JSVal.str "/autoscalers"), ("id", JSVal.str "a1"),
      ("name", JSVal.str "a1"), ("zone", JSVal.ref 0),
      ("metadata", JSVal.str "old")], rfl⟩
    (by decide) (by decide) (Or.inr ⟨rfl, by decide⟩)

end Autoscaler
